import Mathlib

/-!
# Verification of the charting repository's solid-modeling core

Shallow embedding of the procedural solid-modeling engine of the
charting application: the primitive geometry builders
(`PartRenderer` in `ShapeRenderer`, `createBrushFromPart` in the app
component), the boolean evaluator (`handleBooleanOperation`), the part
collection / selection handlers, and the undo/redo history.

Conventions of the embedding:
* JS numbers that only flow through the code (positions, rotations,
  scales, geometry parameters) are modelled as rationals `ℚ`.
* The external CSG library (`three-bvh-csg`) and the THREE geometry
  constructors are delegates; geometries are modelled as the free term
  algebra `BGeom` over the constructor calls the code performs, so two
  geometries are equal exactly when the code builds them by the same
  sequence of constructor/operation calls.
* `BufferGeometry.toJSON` / `BufferGeometryLoader.parse` are a lossless
  round-trip (the serialized document is modelled by the geometry it
  encodes; `parse` is marked by the `BGeom.parsed` wrapper, the decode
  boundary).
* React `useState` state is threaded explicitly through `AppState`;
  each event handler is a state transformer.
-/

/-- A JS `[number, number, number]` triple (position / rotation / scale). -/
structure Vec3 where
  x : ℚ
  y : ℚ
  z : ℚ
deriving DecidableEq, Repr

def v3zero : Vec3 := ⟨0, 0, 0⟩

def v3one : Vec3 := ⟨1, 1, 1⟩

/-- `PrimitiveType` from `types.ts` (the current version, with the
high/low-poly cylinder/cone split and the legacy wedge). -/
inductive PrimitiveType where
  | BOX
  | CYLINDER
  | PRISM
  | SPHERE
  | CONE
  | PYRAMID
  | WEDGE
  | CUSTOM
deriving DecidableEq, Repr

/-- The three CSG operators of `three-bvh-csg` imported by the app. -/
inductive CsgOp where
  | ADDITION
  | SUBTRACTION
  | INTERSECTION
deriving DecidableEq, Repr

/-- The string tag `'UNION' | 'SUBTRACT' | 'INTERSECT'` taken by
`handleBooleanOperation`. -/
inductive BoolTag where
  | UNION
  | SUBTRACT
  | INTERSECT
deriving DecidableEq, Repr

/-- Geometry values (`THREE.BufferGeometry`), as the free algebra over the
constructor and mutation calls the source performs.

* `box w h d` — `new THREE.BoxGeometry(w, h, d)`;
* `cylinder rt rb h n` — `new THREE.CylinderGeometry(rt, rb, h, n)`;
* `cone r h n` — `new THREE.ConeGeometry(r, h, n)`;
* `sphere r w h` — `new THREE.SphereGeometry(r, w, h)` (the height
  segment count is a JS float, `Math.max(16, segs/2)`);
* `rotateX90 g` — `g.rotateX(Math.PI / 2)` (height axis onto Z-up);
* `parsed d` — `new THREE.BufferGeometryLoader().parse(d)`, `d` being a
  serialized geometry document (decode boundary of the delegate);
* `csg op ga pa ra sa gb pb rb sb` — `evaluator.evaluate(a, b, op)`
  where brush `a` is geometry `ga` under transform `(pa, ra, sa)` and
  brush `b` is geometry `gb` under `(pb, rb, sb)`;
* `centered g` — `g.center()` (re-centers the vertex data about the
  origin). -/
inductive BGeom where
  | box (width height depth : ℚ)
  | cylinder (radiusTop radiusBottom height : ℚ) (radialSegments : ℤ)
  | cone (radius height : ℚ) (radialSegments : ℤ)
  | sphere (radius : ℚ) (widthSegments : ℤ) (heightSegments : ℚ)
  | rotateX90 (g : BGeom)
  | parsed (data : BGeom)
  | csg (op : CsgOp) (geoA : BGeom) (posA rotA sclA : Vec3)
        (geoB : BGeom) (posB rotB sclB : Vec3)
  | centered (g : BGeom)
deriving DecidableEq, Repr

/-- `GeometryPart` from `types.ts`: one part descriptor. `rotation`,
`color`, `segments` and `geometryData` are optional fields. -/
structure GeometryPart where
  type : PrimitiveType
  position : Vec3
  rotation : Option Vec3
  scale : Vec3
  color : Option String
  segments : Option ℤ
  geometryData : Option BGeom
deriving DecidableEq, Repr

/-- Placeholder used to totalize JS array reads `customParts[idx]` that the
source only performs at live indices (the selection invariant, claim C4,
guarantees the index is in range; JS would fault on `undefined` otherwise). -/
def phantomPart : GeometryPart :=
  { type := .BOX, position := v3zero, rotation := none, scale := v3one,
    color := none, segments := none, geometryData := none }

/-- JS `segments || d`: `undefined` (and the falsy `0`) fall back to the
default facet count. -/
def jsOr (s : Option ℤ) (d : ℤ) : ℤ :=
  match s with
  | none => d
  | some v => if v = 0 then d else v

/-- The geometry the `PartRenderer` component of `ShapeRenderer.tsx`
builds for a part (the `useMemo` switch): unit-scale primitives with the
height axis rotated onto Z-up, facet counts derived from
`part.segments`. Returns `none` when nothing is rendered (a `CUSTOM`
part without geometry data). -/
def partRendererGeometry (part : GeometryPart) : Option BGeom :=
  let segs := jsOr part.segments 32
  match part.type with
  | .BOX => some (.box 1 1 1)
  | .SPHERE => some (.sphere (1/2) segs (max 16 ((segs : ℚ) / 2)))
  | .CYLINDER => some (.rotateX90 (.cylinder (1/2) (1/2) 1 segs))
  | .PRISM => some (.rotateX90 (.cylinder (1/2) (1/2) 1 (jsOr part.segments 3)))
  | .WEDGE => some (.rotateX90 (.cylinder (1/2) (1/2) 1 3))
  | .CONE => some (.rotateX90 (.cone (1/2) 1 segs))
  | .PYRAMID => some (.rotateX90 (.cone (1/2) 1 (jsOr part.segments 4)))
  | .CUSTOM => part.geometryData.map .parsed

/-- A `three-bvh-csg` `Brush`: a geometry plus its own transform. -/
structure Brush where
  geometry : BGeom
  position : Vec3
  rotation : Vec3
  scale : Vec3
deriving DecidableEq, Repr

/-- `createBrushFromPart` from the app component: re-creates unit-size
geometry from the part type and attaches the part transform. Note the
source's geometry branch handles only `BOX`, `CYLINDER`, `WEDGE`,
`CONE` and `CUSTOM`-with-data; everything else falls to the final
`else` (a unit box), and no branch applies `rotateX` or reads
`part.segments`. -/
def createBrushFromPart (part : GeometryPart) : Brush :=
  let geo : BGeom :=
    if part.type = .BOX then .box 1 1 1
    else if part.type = .CYLINDER then .cylinder (1/2) (1/2) 1 32
    else if part.type = .WEDGE then .cylinder (1/2) (1/2) 1 3
    else if part.type = .CONE then .cone (1/2) 1 32
    else
      match part.type, part.geometryData with
      | .CUSTOM, some d => .parsed d
      | _, _ => .box 1 1 1
  { geometry := geo,
    position := part.position,
    -- `if (part.rotation) brush.rotation.set(...)`; a fresh Brush has
    -- rotation (0,0,0)
    rotation := part.rotation.getD v3zero,
    scale := part.scale }

/-! ## Application state and event handlers (app component) -/

/-- The four `useState` pieces the core handlers touch:
`customParts`, `selectedPartIndices`, `history` (past) and `future`.
Selection indices are JS numbers (`ℤ`; the `-1` sentinel of
`handlePartClick` is never stored). -/
structure AppState where
  customParts : List GeometryPart
  selectedPartIndices : List ℤ
  history : List (List GeometryPart)
  future : List (List GeometryPart)
deriving DecidableEq, Repr

/-- The initial state: all four `useState` hooks start empty. -/
def initialAppState : AppState :=
  { customParts := [], selectedPartIndices := [], history := [], future := [] }

/-- `pushToHistory`: appends the current part list to `history` and
clears `future`. -/
def pushToHistory (s : AppState) : AppState :=
  { s with history := s.history ++ [s.customParts], future := [] }

/-- `handleUndo`: no-op on empty history; otherwise restores the last
snapshot, prepends the current parts to `future`, clears the
selection. -/
def handleUndo (s : AppState) : AppState :=
  if s.history.length = 0 then s
  else
    let previous := s.history.getLastD []
    { customParts := previous,
      selectedPartIndices := [],
      history := s.history.dropLast,
      future := s.customParts :: s.future }

/-- `handleRedo`: no-op on empty future; otherwise restores the first
future snapshot, appends the current parts to `history`, clears the
selection. -/
def handleRedo (s : AppState) : AppState :=
  if s.future.length = 0 then s
  else
    let next := s.future.headD []
    { customParts := next,
      selectedPartIndices := [],
      history := s.history ++ [s.customParts],
      future := s.future.tail }

/-- The default-configured descriptor `handleAddPart` builds (the scale
ternary `type === BOX ? [2,2,2] : [2,2,2]` yields `[2,2,2]` on both
branches). -/
def defaultNewPart (t : PrimitiveType) : GeometryPart :=
  { type := t,
    position := v3zero,
    scale := ⟨2, 2, 2⟩,
    rotation := some v3zero,
    color := some "#60a5fa",
    segments := none,
    geometryData := none }

/-- `handleAddPart`: snapshot, append the default part, select it. -/
def handleAddPart (s : AppState) (t : PrimitiveType) : AppState :=
  let s₁ := pushToHistory s
  { s₁ with
    customParts := s.customParts ++ [defaultNewPart t],
    selectedPartIndices := [(s.customParts.length : ℤ)] }

/-- The JS array write `newParts[index] = updatedPart` on a copy of the
list. In range it replaces in place; at `index = length` it appends; a
negative index sets a non-index property (the indexed elements are
unchanged); `index > length` would create a sparse array with
`undefined` holes, which this list model cannot represent (the
presentation layer only passes live indices, so that branch is
modelled as the identity). -/
def listSetJs (l : List α) (i : ℤ) (x : α) : List α :=
  if i < 0 then l
  else if i.toNat < l.length then l.set i.toNat x
  else if i.toNat = l.length then l ++ [x]
  else l

/-- `handleUpdatePart`: snapshot, then write the new descriptor at
`index` on a copy of the list. There is no bounds check in the
source. -/
def handleUpdatePart (s : AppState) (index : ℤ) (updatedPart : GeometryPart) : AppState :=
  let s₁ := pushToHistory s
  { s₁ with customParts := listSetJs s.customParts index updatedPart }

/-- `handleRemovePart`: snapshot, drop the entry at `index`
(`filter((_, i) => i !== index)`), clear the selection. -/
def handleRemovePart (s : AppState) (index : ℤ) : AppState :=
  let s₁ := pushToHistory s
  { s₁ with
    customParts := ((s.customParts.enum.filter (fun p => ¬((p.1 : ℤ) = index))).map Prod.snd),
    selectedPartIndices := [] }

/-- `handlePartClick`: `-1` clears the selection; with `multiSelect` the
index is toggled in or out; otherwise the selection becomes the
singleton. (The layer-list click handler in `Sidebar` passes the same
three list shapes through `onSelectPart`, so this also models the
sidebar selection events.) -/
def handlePartClick (s : AppState) (index : ℤ) (multiSelect : Bool) : AppState :=
  if index = -1 then { s with selectedPartIndices := [] }
  else if multiSelect then
    if index ∈ s.selectedPartIndices then
      { s with selectedPartIndices := s.selectedPartIndices.filter (fun i => ¬(i = index)) }
    else
      { s with selectedPartIndices := s.selectedPartIndices ++ [index] }
  else { s with selectedPartIndices := [index] }

/-- `[...selectedPartIndices].sort((a,b) => a - b)`: numeric ascending
sort. Any correct sort is extensionally this one (sorted output is
unique per multiset); the embedding uses insertion sort. -/
def sortIndicesAsc (l : List ℤ) : List ℤ :=
  l.insertionSort (· ≤ ·)

/-- `evaluator.evaluate(a, b, op)`: delegate call into `three-bvh-csg`,
modelled freely. The returned `Brush` carries the result geometry (in
world space) under a fresh identity transform; only its `.geometry` is
read afterwards. -/
def evalBrush (a b : Brush) (op : CsgOp) : Brush :=
  { geometry := .csg op a.geometry a.position a.rotation a.scale
                       b.geometry b.position b.rotation b.scale,
    position := v3zero, rotation := v3zero, scale := v3one }

/-- The operator selection inside the reduction loop:
`let op = ADDITION; if SUBTRACT → SUBTRACTION; if INTERSECT →
INTERSECTION` (recomputed identically on every iteration). -/
def opOfTag (t : BoolTag) : CsgOp :=
  if t = .SUBTRACT then .SUBTRACTION
  else if t = .INTERSECT then .INTERSECTION
  else .ADDITION

/-- The reduction loop: `resultBrush := brushes[0]`, then
`resultBrush := evaluate(resultBrush, brushes[i], op)` for `i ≥ 1`.
The empty case is unreachable (the handler requires at least two
selected operands; JS would fault on `undefined`). -/
def reduceBrushes (t : BoolTag) : List Brush → Brush
  | [] => { geometry := .box 1 1 1, position := v3zero, rotation := v3zero, scale := v3one }
  | b :: rest => rest.foldl (fun acc tb => evalBrush acc tb (opOfTag t)) b

/-- The brushes the handler builds: one per selected index, in
ascending-index order (`sortedIndices.map(idx =>
createBrushFromPart(customParts[idx]))`). -/
def operandBrushes (parts : List GeometryPart) (sel : List ℤ) : List Brush :=
  (sortIndicesAsc sel).map (fun idx => createBrushFromPart (parts.getD idx.toNat phantomPart))

/-- `remainingParts`: `customParts.filter((_, idx) =>
!selectedPartIndices.includes(idx))`. -/
def remainingParts (parts : List GeometryPart) (sel : List ℤ) : List GeometryPart :=
  (parts.enum.filter (fun p => ¬((p.1 : ℤ) ∈ sel))).map Prod.snd

/-- `handleBooleanOperation`, parameterized by the external bounding-box
center computation `bb` (`computeBoundingBox`/`getCenter` of THREE):
refuse under two operands; otherwise snapshot, sort the selected
indices ascending, build one brush per operand, reduce pairwise
left-to-right, read the result center, re-center the result geometry,
and replace the consumed operands with one appended `CUSTOM` part
holding the serialized re-centered mesh; select the new part. -/
def handleBooleanOperation (bb : BGeom → Vec3) (t : BoolTag) (s : AppState) : AppState :=
  if s.selectedPartIndices.length < 2 then s
  else
    let s₁ := pushToHistory s
    let brushes := operandBrushes s.customParts s.selectedPartIndices
    let resGeometry := (reduceBrushes t brushes).geometry
    let center := bb resGeometry
    let newPart : GeometryPart :=
      { type := .CUSTOM,
        position := center,
        scale := v3one,
        rotation := some v3zero,
        color := some "#60a5fa",
        segments := none,
        geometryData := some (.centered resGeometry) }
    let remaining := remainingParts s.customParts s.selectedPartIndices
    { s₁ with
      customParts := remaining ++ [newPart],
      selectedPartIndices := [(remaining.length : ℤ)] }

/-! ## Property editor: segment control (Sidebar) -/

/-- The digit-prefix value read by JS `parseInt`: the longest leading
run of decimal digits, `none` when it is empty. -/
def digitsPrefixVal (cs : List Char) : Option ℕ :=
  let ds := cs.takeWhile Char.isDigit
  if ds.isEmpty then none
  else some (ds.foldl (fun a c => a * 10 + (c.toNat - '0'.toNat)) 0)

/-- JS `parseInt(s)` in base 10: skip leading whitespace, optional
sign, longest digit prefix; `none` models `NaN`. -/
def parseIntJs (s : String) : Option ℤ :=
  match s.data.dropWhile Char.isWhitespace with
  | '-' :: rest => (digitsPrefixVal rest).map (fun n => -(n : ℤ))
  | '+' :: rest => (digitsPrefixVal rest).map (fun n => (n : ℤ))
  | cs => (digitsPrefixVal cs).map (fun n => (n : ℤ))

/-- `handleSegmentChange` from `Sidebar`: only acts when exactly one
part is selected (`primaryIndex`); parses the control's string, clamps
to `[3, 64]` by the two sequential `if`s, and routes the updated
descriptor through `onUpdatePart`. A `NaN` parse is stored as-is in
JS; like `undefined` it is falsy everywhere `segments` is read
(`segments || d`), so it is modelled as `none`. -/
def handleSegmentChange (s : AppState) (val : String) : AppState :=
  match s.selectedPartIndices with
  | [primaryIndex] =>
    let part := s.customParts.getD primaryIndex.toNat phantomPart
    match parseIntJs val with
    | some v =>
      let v₁ := if v < 3 then 3 else v
      let v₂ := if v₁ > 64 then 64 else v₁
      handleUpdatePart s primaryIndex { part with segments := some v₂ }
    | none => handleUpdatePart s primaryIndex { part with segments := none }
  | _ => s

/-! ## The event alphabet of the core, for invariant claims

Every mutating or selection event the presentation layer can feed the
core handlers. `okEvent` states the contract of the presentation
boundary: part-addressed events carry indices of live entries (they
come from enumerating `customParts` or from the live selection). -/

inductive CoreEvent where
  | addPart (t : PrimitiveType)
  | updatePart (index : ℤ) (p : GeometryPart)
  | removePart (index : ℤ)
  | booleanOp (t : BoolTag)
  | undo
  | redo
  | partClick (index : ℤ) (multiSelect : Bool)
deriving DecidableEq, Repr

/-- Dispatch one event to its handler. -/
def stepApp (bb : BGeom → Vec3) (s : AppState) : CoreEvent → AppState
  | .addPart t => handleAddPart s t
  | .updatePart i p => handleUpdatePart s i p
  | .removePart i => handleRemovePart s i
  | .booleanOp t => handleBooleanOperation bb t s
  | .undo => handleUndo s
  | .redo => handleRedo s
  | .partClick i m => handlePartClick s i m

/-- The presentation-boundary contract: `updatePart` targets a live
entry (its index comes from the selection or from enumerating the part
list), and `partClick` carries `-1` (background click) or a live
index (hit-tested part / layer-list row). -/
def okEvent (s : AppState) : CoreEvent → Bool
  | .updatePart i _ => decide (0 ≤ i) && decide (i < (s.customParts.length : ℤ))
  | .partClick i _ => decide (i = -1) || (decide (0 ≤ i) && decide (i < (s.customParts.length : ℤ)))
  | _ => true

/-- A whole event trace satisfies the presentation contract. -/
def okTrace (bb : BGeom → Vec3) : AppState → List CoreEvent → Bool
  | _, [] => true
  | s, e :: es => okEvent s e && okTrace bb (stepApp bb s e) es

/-- Run a trace of events. -/
def runApp (bb : BGeom → Vec3) (s : AppState) (es : List CoreEvent) : AppState :=
  es.foldl (stepApp bb) s

/-- The Selection State invariant: every selected index addresses a
live part, and there are no duplicates. -/
def SelInv (s : AppState) : Prop :=
  (∀ i ∈ s.selectedPartIndices, 0 ≤ i ∧ i < (s.customParts.length : ℤ)) ∧
    s.selectedPartIndices.Nodup

instance (s : AppState) : Decidable (SelInv s) := by
  unfold SelInv; infer_instance

/-! ## Structure of CSG reduction terms (for the evaluator claims) -/

/-- The left spine of a CSG term: the operand geometries of the
left-to-right reduction that produced it, in order. A non-`csg` term is
its own single operand. -/
def combSpine : BGeom → List BGeom
  | .csg _ ga _ _ _ gb _ _ _ => combSpine ga ++ [gb]
  | g => [g]

/-- The operators along the left spine of a CSG term, one per binary
combine call that produced it. -/
def combOps : BGeom → List CsgOp
  | .csg op ga _ _ _ _ _ _ _ => combOps ga ++ [op]
  | _ => []

/-! ## Shared helper lemmas -/

/-- `handleRedo` does nothing when `future` is empty. -/
theorem handleRedo_of_future_eq_nil {s : AppState} (h : s.future = []) :
    handleRedo s = s := by
  unfold handleRedo
  simp [h]

/-- A concrete center computation, standing in for the external
bounding-box delegate in closed instances. -/
def bbStub : BGeom → Vec3 := fun _ => v3zero

/-- A two-part state used by closed instances of the theorems. -/
def twoPartState : AppState :=
  { customParts := [defaultNewPart .BOX, defaultNewPart .CYLINDER],
    selectedPartIndices := [1, 0],
    history := [],
    future := [] }

/-! ## C7 — boolean operation with fewer than two operands -/

/-- C7: a boolean operation requested with fewer than 2 selected
operands is refused with no observable state change at all: part
collection, selection, `past` and `future` stacks are exactly as
before, and no history snapshot is pushed. -/
theorem c7_insufficient_operands_noop (bb : BGeom → Vec3) (t : BoolTag) (s : AppState)
    (h : s.selectedPartIndices.length < 2) :
    handleBooleanOperation bb t s = s := by
  unfold handleBooleanOperation
  exact if_pos h

theorem c7_insufficient_operands_noop_witness :
    twoPartState.selectedPartIndices.length < 2 ∨
      handleBooleanOperation bbStub .SUBTRACT
        { twoPartState with selectedPartIndices := [0] } =
        { twoPartState with selectedPartIndices := [0] } :=
  Or.inr (c7_insufficient_operands_noop bbStub .SUBTRACT _ (by decide))

/-! ## C5 — every mutating action clears `future` -/

/-- C5: each mutating action (`addPart`, `updatePart`, `removePart`,
boolean operation) clears the `future` stack before applying its
change, so a `redo` issued right after it (in particular after a
mutation that follows one or more undos) is a no-op. -/
theorem c5_mutations_clear_future (bb : BGeom → Vec3) (t : BoolTag) (pt : PrimitiveType)
    (s : AppState) (i : ℤ) (p : GeometryPart) :
    ((handleAddPart s pt).future = [] ∧
      handleRedo (handleAddPart s pt) = handleAddPart s pt) ∧
    ((handleUpdatePart s i p).future = [] ∧
      handleRedo (handleUpdatePart s i p) = handleUpdatePart s i p) ∧
    ((handleRemovePart s i).future = [] ∧
      handleRedo (handleRemovePart s i) = handleRemovePart s i) ∧
    (2 ≤ s.selectedPartIndices.length →
      (handleBooleanOperation bb t s).future = [] ∧
      handleRedo (handleBooleanOperation bb t s) = handleBooleanOperation bb t s) := by
  have hb : 2 ≤ s.selectedPartIndices.length → (handleBooleanOperation bb t s).future = [] := by
    intro h2
    unfold handleBooleanOperation
    rw [if_neg (by omega)]
    rfl
  exact ⟨⟨rfl, handleRedo_of_future_eq_nil rfl⟩,
    ⟨rfl, handleRedo_of_future_eq_nil rfl⟩,
    ⟨rfl, handleRedo_of_future_eq_nil rfl⟩,
    fun h2 => ⟨hb h2, handleRedo_of_future_eq_nil (hb h2)⟩⟩

theorem c5_mutations_clear_future_witness :
    2 ≤ twoPartState.selectedPartIndices.length ∧
      handleRedo (handleBooleanOperation bbStub .UNION twoPartState) =
        handleBooleanOperation bbStub .UNION twoPartState :=
  ⟨by decide,
    ((c5_mutations_clear_future bbStub .UNION .BOX twoPartState 0
        (defaultNewPart .BOX)).2.2.2 (by decide)).2⟩

/-! ## C6 — removePart then undo restores the collection -/

/-- C6: for every state and every valid index, `removePart` followed
immediately by `undo` restores the part collection to an equal list,
the removed part back at its original index. -/
theorem c6_remove_undo_roundtrip (s : AppState) (i : ℤ)
    (h0 : 0 ≤ i) (h1 : i < (s.customParts.length : ℤ)) :
    (handleUndo (handleRemovePart s i)).customParts = s.customParts := by
  unfold handleRemovePart handleUndo pushToHistory
  simp

theorem c6_remove_undo_roundtrip_witness :
    (0 : ℤ) ≤ 1 ∧ (1 : ℤ) < (twoPartState.customParts.length : ℤ) ∧
      (handleUndo (handleRemovePart twoPartState 1)).customParts = twoPartState.customParts :=
  ⟨by decide, by decide, c6_remove_undo_roundtrip twoPartState 1 (by decide) (by decide)⟩

/-! ## C10 — redo is a full inverse of undo -/

/-- A state with one undoable step, for closed instances. -/
def undoReadyState : AppState :=
  { twoPartState with history := [[defaultNewPart .BOX]] }

/-- C10: whenever the `past` stack is non-empty, `undo` immediately
followed by `redo` restores the part collection, the `past` stack and
the `future` stack exactly; only the selection differs, being
cleared. -/
theorem c10_undo_redo_roundtrip (s : AppState) (h : s.history ≠ []) :
    (handleRedo (handleUndo s)).customParts = s.customParts ∧
    (handleRedo (handleUndo s)).history = s.history ∧
    (handleRedo (handleUndo s)).future = s.future ∧
    (handleRedo (handleUndo s)).selectedPartIndices = [] := by
  obtain ⟨parts, sel, hist, fut⟩ := s
  rcases List.eq_nil_or_concat hist with rfl | ⟨l, a, rfl⟩
  · exact absurd rfl h
  · unfold handleUndo handleRedo
    simp

theorem c10_undo_redo_roundtrip_witness :
    undoReadyState.history ≠ [] ∧
      (handleRedo (handleUndo undoReadyState)).customParts = undoReadyState.customParts :=
  ⟨by decide, (c10_undo_redo_roundtrip undoReadyState (by decide)).1⟩

/-! ## C8 — updatePart at an out-of-range index -/

/-- C8 counterexample: `updatePart` at index `length` (out of range) does
not refuse: the collection gains an entry. The claim that the part
collection is left unchanged is false. -/
theorem c8_update_out_of_range_counterexample :
    (handleUpdatePart (AppState.mk [defaultNewPart .BOX] [0] [] []) 1
        (defaultNewPart .SPHERE)).customParts ≠ [defaultNewPart .BOX] := by
  decide

/-- C8 (amended): `handleUpdatePart` performs no index validation. At
the first out-of-range index (`index = length`) the JS write extends
the collection, appending the new descriptor instead of refusing; a
history snapshot is still taken. -/
theorem c8_update_out_of_range_appends (s : AppState) (p : GeometryPart) :
    (handleUpdatePart s (s.customParts.length : ℤ) p).customParts = s.customParts ++ [p] ∧
    (handleUpdatePart s (s.customParts.length : ℤ) p).history = s.history ++ [s.customParts] := by
  unfold handleUpdatePart listSetJs pushToHistory
  simp

/-! ## C1 — brush-factory geometry versus renderer geometry -/

/-- C1 fails on the code: at a freshly added `SPHERE` part the renderer
builds a unit-diameter sphere while the brush factory falls back to a
unit box, and at a freshly added `CYLINDER` part the renderer rotates
the height axis onto Z-up while the brush factory does not; so the two
geometries are not identical even though both are evaluated at the
same `(kind, segments)` pair. -/
theorem c1_brush_renderer_mismatch :
    partRendererGeometry (defaultNewPart .SPHERE) =
      some (.sphere (1/2) 32 16) ∧
    (createBrushFromPart (defaultNewPart .SPHERE)).geometry = .box 1 1 1 ∧
    partRendererGeometry (defaultNewPart .CYLINDER) =
      some (.rotateX90 (.cylinder (1/2) (1/2) 1 32)) ∧
    (createBrushFromPart (defaultNewPart .CYLINDER)).geometry =
      .cylinder (1/2) (1/2) 1 32 ∧
    partRendererGeometry (defaultNewPart .SPHERE) ≠
      some (createBrushFromPart (defaultNewPart .SPHERE)).geometry ∧
    partRendererGeometry (defaultNewPart .CYLINDER) ≠
      some (createBrushFromPart (defaultNewPart .CYLINDER)).geometry := by
  refine ⟨?_, rfl, ?_, rfl, ?_, ?_⟩ <;>
    simp [partRendererGeometry, createBrushFromPart, defaultNewPart, jsOr] <;>
    norm_num

/-! ## C9 — segment edits are clamped to [3, 64] -/

/-- C9: with exactly one (live) part selected, any segment-control input
that parses to a number is stored clamped into `[3, 64]` on that
part. -/
theorem c9_segment_change_clamped (s : AppState) (val : String) (i v : ℤ)
    (hsel : s.selectedPartIndices = [i]) (h0 : 0 ≤ i)
    (hlen : i.toNat < s.customParts.length)
    (hp : parseIntJs val = some v) :
    ∃ w : ℤ,
      ((handleSegmentChange s val).customParts.getD i.toNat phantomPart).segments = some w ∧
      3 ≤ w ∧ w ≤ 64 := by
  refine ⟨if (if v < 3 then 3 else v) > 64 then 64 else (if v < 3 then 3 else v), ?_, ?_, ?_⟩
  · obtain ⟨parts, sel, hist, fut⟩ := s
    dsimp only at hsel hlen ⊢
    subst hsel
    unfold handleSegmentChange
    dsimp only
    rw [hp]
    unfold handleUpdatePart pushToHistory listSetJs
    dsimp only
    rw [if_neg (by omega : ¬(i < (0 : ℤ))), if_pos hlen]
    simp [List.getD, hlen]
  · split_ifs <;> omega
  · split_ifs <;> omega

theorem c9_segment_change_clamped_witness :
    twoPartState.selectedPartIndices = [1, 0] ∧
    ({ twoPartState with selectedPartIndices := [1] }).selectedPartIndices = [1] ∧
    (0 : ℤ) ≤ 1 ∧
    (1 : ℤ).toNat < ({ twoPartState with selectedPartIndices := [1] }).customParts.length ∧
    parseIntJs "100" = some 100 ∧
    (∃ w : ℤ,
      ((handleSegmentChange { twoPartState with selectedPartIndices := [1] } "100").customParts.getD
          (1 : ℤ).toNat phantomPart).segments = some w ∧
      3 ≤ w ∧ w ≤ 64) :=
  ⟨by decide, by decide, by decide, by decide, by decide,
    c9_segment_change_clamped _ "100" 1 100 rfl (by decide) (by decide) (by decide)⟩

/-! ## C2 — deterministic ordered left-to-right reduction -/

theorem sortIndicesAsc_sorted (l : List ℤ) : (sortIndicesAsc l).Sorted (· ≤ ·) :=
  List.sorted_insertionSort _ l

theorem sortIndicesAsc_perm (l : List ℤ) : (sortIndicesAsc l).Perm l :=
  List.perm_insertionSort _ l

theorem sortIndicesAsc_eq_of_perm {l₁ l₂ : List ℤ} (h : l₁.Perm l₂) :
    sortIndicesAsc l₁ = sortIndicesAsc l₂ :=
  List.eq_of_perm_of_sorted
    ((sortIndicesAsc_perm l₁).trans (h.trans (sortIndicesAsc_perm l₂).symm))
    (sortIndicesAsc_sorted l₁) (sortIndicesAsc_sorted l₂)

theorem combSpine_createBrushFromPart (p : GeometryPart) :
    combSpine (createBrushFromPart p).geometry = [(createBrushFromPart p).geometry] := by
  rcases p with ⟨ty, pos, rot, scl, col, seg, gd⟩
  cases ty <;> cases gd <;> rfl

theorem combOps_createBrushFromPart (p : GeometryPart) :
    combOps (createBrushFromPart p).geometry = [] := by
  rcases p with ⟨ty, pos, rot, scl, col, seg, gd⟩
  cases ty <;> cases gd <;> rfl

theorem combSpine_foldl (t : BoolTag) (l : List Brush) (b : Brush) :
    combSpine ((l.foldl (fun acc tb => evalBrush acc tb (opOfTag t)) b).geometry) =
      combSpine b.geometry ++ l.map Brush.geometry := by
  induction l generalizing b with
  | nil => simp
  | cons hd tl ih =>
    rw [List.foldl_cons, ih]
    simp [evalBrush, combSpine]

theorem combOps_foldl (t : BoolTag) (l : List Brush) (b : Brush) :
    combOps ((l.foldl (fun acc tb => evalBrush acc tb (opOfTag t)) b).geometry) =
      combOps b.geometry ++ List.replicate l.length (opOfTag t) := by
  induction l generalizing b with
  | nil => simp
  | cons hd tl ih =>
    rw [List.foldl_cons, ih]
    simp [evalBrush, combOps, List.replicate_succ]

theorem combSpine_operandBrush {parts : List GeometryPart} {sel : List ℤ} {b : Brush}
    (hb : b ∈ operandBrushes parts sel) : combSpine b.geometry = [b.geometry] := by
  obtain ⟨i, _, rfl⟩ := List.mem_map.mp hb
  exact combSpine_createBrushFromPart _

theorem combOps_operandBrush {parts : List GeometryPart} {sel : List ℤ} {b : Brush}
    (hb : b ∈ operandBrushes parts sel) : combOps b.geometry = [] := by
  obtain ⟨i, _, rfl⟩ := List.mem_map.mp hb
  exact combOps_createBrushFromPart _

theorem operandBrushes_perm_eq (parts : List GeometryPart) {sel sel' : List ℤ}
    (h : sel'.Perm sel) : operandBrushes parts sel' = operandBrushes parts sel := by
  unfold operandBrushes
  rw [sortIndicesAsc_eq_of_perm h]

theorem remainingParts_perm_eq (parts : List GeometryPart) {sel sel' : List ℤ}
    (h : sel'.Perm sel) : remainingParts parts sel' = remainingParts parts sel := by
  unfold remainingParts
  congr 1
  apply List.filter_congr
  intro a _
  simp [h.mem_iff]

/-- C2: with at least two selected operands, the boolean evaluation
orders the operands by ascending part-collection index (sorted,
a permutation of the selection, lowest index first), is fully
independent of the order in which the parts were selected, builds one
brush per operand, and reduces strictly left-to-right: the result term's
operand spine is exactly the sorted operand geometries and its combine
spine is `N−1` applications of the single chosen operator. -/
theorem c2_ordered_reduction (bb : BGeom → Vec3) (t : BoolTag) (s : AppState)
    (sel' : List ℤ) (h2 : 2 ≤ s.selectedPartIndices.length)
    (hperm : sel'.Perm s.selectedPartIndices) :
    (sortIndicesAsc s.selectedPartIndices).Sorted (· ≤ ·) ∧
    (sortIndicesAsc s.selectedPartIndices).Perm s.selectedPartIndices ∧
    (∀ j ∈ s.selectedPartIndices, ∀ k ∈ (sortIndicesAsc s.selectedPartIndices).head?, k ≤ j) ∧
    handleBooleanOperation bb t { s with selectedPartIndices := sel' } =
      handleBooleanOperation bb t s ∧
    (operandBrushes s.customParts s.selectedPartIndices).length =
      s.selectedPartIndices.length ∧
    combSpine (reduceBrushes t (operandBrushes s.customParts s.selectedPartIndices)).geometry =
      (operandBrushes s.customParts s.selectedPartIndices).map Brush.geometry ∧
    combOps (reduceBrushes t (operandBrushes s.customParts s.selectedPartIndices)).geometry =
      List.replicate (s.selectedPartIndices.length - 1) (opOfTag t) := by
  have hsort := sortIndicesAsc_sorted s.selectedPartIndices
  have hpermS := sortIndicesAsc_perm s.selectedPartIndices
  have hlen : (operandBrushes s.customParts s.selectedPartIndices).length =
      s.selectedPartIndices.length := by
    simp [operandBrushes, hpermS.length_eq]
  refine ⟨hsort, hpermS, ?_, ?_, hlen, ?_, ?_⟩
  · intro j hj k hk
    have hj' : j ∈ sortIndicesAsc s.selectedPartIndices := hpermS.mem_iff.mpr hj
    cases hs : sortIndicesAsc s.selectedPartIndices with
    | nil => rw [hs] at hk; simp at hk
    | cons a rest =>
      rw [hs] at hk
      simp at hk
      subst hk
      rw [hs] at hj' hsort
      rcases List.mem_cons.mp hj' with rfl | hmem
      · exact le_refl j
      · exact (List.sorted_cons.mp hsort).1 j hmem
  · have hlen' := hperm.length_eq
    have g1 : ¬(sel'.length < 2) := by omega
    have g2 : ¬(s.selectedPartIndices.length < 2) := by omega
    unfold handleBooleanOperation
    dsimp only
    rw [if_neg g1, if_neg g2, operandBrushes_perm_eq s.customParts hperm,
      remainingParts_perm_eq s.customParts hperm]
    rfl
  · cases hb : operandBrushes s.customParts s.selectedPartIndices with
    | nil => rw [hb] at hlen; simp at hlen; omega
    | cons b rest =>
      have hhead : combSpine b.geometry = [b.geometry] :=
        combSpine_operandBrush (by rw [hb]; exact List.mem_cons_self b rest)
      show combSpine ((rest.foldl (fun acc tb => evalBrush acc tb (opOfTag t)) b).geometry) = _
      rw [combSpine_foldl, hhead]
      simp
  · cases hb : operandBrushes s.customParts s.selectedPartIndices with
    | nil => rw [hb] at hlen; simp at hlen; omega
    | cons b rest =>
      have hhead : combOps b.geometry = [] :=
        combOps_operandBrush (by rw [hb]; exact List.mem_cons_self b rest)
      have hrest : rest.length = s.selectedPartIndices.length - 1 := by
        rw [hb] at hlen
        simp at hlen
        omega
      show combOps ((rest.foldl (fun acc tb => evalBrush acc tb (opOfTag t)) b).geometry) = _
      rw [combOps_foldl, hhead, hrest]
      simp

theorem c2_ordered_reduction_witness :
    2 ≤ twoPartState.selectedPartIndices.length ∧
    ([0, 1] : List ℤ).Perm twoPartState.selectedPartIndices ∧
    handleBooleanOperation bbStub .SUBTRACT { twoPartState with selectedPartIndices := [0, 1] } =
      handleBooleanOperation bbStub .SUBTRACT twoPartState :=
  ⟨by decide, by decide,
    (c2_ordered_reduction bbStub .SUBTRACT twoPartState [0, 1]
        (by decide) (by decide)).2.2.2.1⟩

/-! ## C3 — the boolean replacement step -/

/-- A red-colored box part, used to exhibit the result color. -/
def redBoxPart : GeometryPart :=
  { defaultNewPart .BOX with color := some "#ff0000" }

/-- Two red parts, both selected. -/
def redState : AppState :=
  AppState.mk [redBoxPart, redBoxPart] [0, 1] [] []

/-- C3 counterexample: the new part's color is the hard-coded default
`'#60a5fa'`, not the color of the first (lowest-index) operand
(`'#ff0000'` here). -/
theorem c3_result_color_counterexample :
    ((handleBooleanOperation bbStub .UNION redState).customParts.getLastD phantomPart).color =
      some "#60a5fa" ∧
    (redState.customParts.getD 0 phantomPart).color = some "#ff0000" ∧
    ((handleBooleanOperation bbStub .UNION redState).customParts.getLastD phantomPart).color ≠
      (redState.customParts.getD 0 phantomPart).color := by
  decide

/-- C3 (amended): after every successful boolean operation all selected
operands are removed, a single new part is appended whose descriptor has
`kind = Custom`, `position` = the computed geometric center of the
result mesh, `rotation = [0,0,0]`, `scale = [1,1,1]`, `bakedMesh` = the
serialized re-centered result mesh, and color equal to the fixed
default `'#60a5fa'` (not the first operand's color); the selection
becomes the singleton of the new part's index, and one history snapshot
of the pre-operation collection is pushed with `future` cleared. -/
theorem c3_boolean_replacement (bb : BGeom → Vec3) (t : BoolTag) (s : AppState)
    (h2 : 2 ≤ s.selectedPartIndices.length) :
    handleBooleanOperation bb t s =
      AppState.mk
        (remainingParts s.customParts s.selectedPartIndices ++
          [GeometryPart.mk .CUSTOM
            (bb (reduceBrushes t (operandBrushes s.customParts s.selectedPartIndices)).geometry)
            (some v3zero) v3one (some "#60a5fa") none
            (some (.centered
              (reduceBrushes t (operandBrushes s.customParts s.selectedPartIndices)).geometry))])
        [((remainingParts s.customParts s.selectedPartIndices).length : ℤ)]
        (s.history ++ [s.customParts])
        [] := by
  unfold handleBooleanOperation pushToHistory
  rw [if_neg (by omega)]

theorem c3_boolean_replacement_witness :
    2 ≤ redState.selectedPartIndices.length ∧
    (handleBooleanOperation bbStub .UNION redState).selectedPartIndices =
      [((remainingParts redState.customParts redState.selectedPartIndices).length : ℤ)] ∧
    (handleBooleanOperation bbStub .UNION redState).future = [] :=
  ⟨by decide,
    by rw [c3_boolean_replacement bbStub .UNION redState (by decide)],
    by rw [c3_boolean_replacement bbStub .UNION redState (by decide)]⟩

/-! ## C4 — the selection invariant -/

/-- One step of any core handler preserves the selection invariant,
under the presentation-boundary contract on event indices. -/
theorem selInv_step (bb : BGeom → Vec3) (s : AppState) (e : CoreEvent)
    (hInv : SelInv s) (hok : okEvent s e = true) : SelInv (stepApp bb s e) := by
  obtain ⟨hbound, hnodup⟩ := hInv
  cases e with
  | addPart t =>
    constructor
    · intro i hi
      simp only [stepApp, handleAddPart, pushToHistory, List.mem_singleton] at hi
      subst hi
      simp [stepApp, handleAddPart, pushToHistory]
    · simp [stepApp, handleAddPart, pushToHistory]
  | updatePart i p =>
    simp only [okEvent, Bool.and_eq_true, decide_eq_true_eq] at hok
    have htn : i.toNat < s.customParts.length := by omega
    constructor
    · intro j hj
      simp only [stepApp, handleUpdatePart, pushToHistory, listSetJs] at hj ⊢
      rw [if_neg (by omega : ¬(i < (0 : ℤ))), if_pos htn]
      simpa using hbound j hj
    · exact hnodup
  | removePart i =>
    constructor
    · intro j hj
      simp [stepApp, handleRemovePart, pushToHistory] at hj
    · simp [stepApp, handleRemovePart, pushToHistory]
  | booleanOp t =>
    by_cases hlt : s.selectedPartIndices.length < 2
    · simpa [stepApp, handleBooleanOperation, hlt] using And.intro hbound hnodup
    · constructor
      · intro j hj
        simp only [stepApp, handleBooleanOperation, if_neg hlt, pushToHistory,
          List.mem_singleton] at hj
        subst hj
        simp [stepApp, handleBooleanOperation, if_neg hlt, pushToHistory]
      · simp [stepApp, handleBooleanOperation, if_neg hlt, pushToHistory]
  | undo =>
    by_cases hh : s.history.length = 0
    · simpa [stepApp, handleUndo, hh] using And.intro hbound hnodup
    · constructor
      · intro j hj
        simp [stepApp, handleUndo, hh] at hj
      · simp [stepApp, handleUndo, hh]
  | redo =>
    by_cases hh : s.future.length = 0
    · simpa [stepApp, handleRedo, hh] using And.intro hbound hnodup
    · constructor
      · intro j hj
        simp [stepApp, handleRedo, hh] at hj
      · simp [stepApp, handleRedo, hh]
  | partClick i m =>
    by_cases hi1 : i = -1
    · constructor
      · intro j hj
        simp [stepApp, handlePartClick, hi1] at hj
      · simp [stepApp, handlePartClick, hi1]
    · have hir : 0 ≤ i ∧ i < (s.customParts.length : ℤ) := by
        simp only [okEvent, Bool.or_eq_true, Bool.and_eq_true, decide_eq_true_eq] at hok
        rcases hok with h | h
        · exact absurd h hi1
        · exact h
      cases m with
      | false =>
        constructor
        · intro j hj
          simp only [stepApp, handlePartClick, if_neg hi1, Bool.false_eq_true, if_false,
            List.mem_singleton] at hj
          subst hj
          simpa [stepApp, handlePartClick, hi1] using hir
        · simp [stepApp, handlePartClick, hi1]
      | true =>
        by_cases hmem : i ∈ s.selectedPartIndices
        · constructor
          · intro j hj
            simp only [stepApp, handlePartClick, if_neg hi1, if_true, if_pos hmem] at hj ⊢
            exact hbound j (List.mem_of_mem_filter hj)
          · simp only [stepApp, handlePartClick, if_neg hi1, if_true, if_pos hmem]
            exact hnodup.filter _
        · constructor
          · intro j hj
            simp only [stepApp, handlePartClick, if_neg hi1, if_true, if_neg hmem,
              List.mem_append, List.mem_singleton] at hj ⊢
            rcases hj with hj | rfl
            · exact hbound j hj
            · exact hir
          · simp only [stepApp, handlePartClick, if_neg hi1, if_true, if_neg hmem]
            simp [List.nodup_append, hnodup, hmem]

/-- C4: along every event trace that satisfies the presentation
contract, the selection invariant holds at the end (and hence, applied
to each prefix, immediately after every operation): every selected
index is live and the selection is duplicate-free. -/
theorem c4_selection_invariant (bb : BGeom → Vec3) (s : AppState) (es : List CoreEvent)
    (hInv : SelInv s) (hok : okTrace bb s es = true) : SelInv (runApp bb s es) := by
  induction es generalizing s with
  | nil => exact hInv
  | cons e es ih =>
    simp only [okTrace, Bool.and_eq_true] at hok
    simp only [runApp, List.foldl_cons]
    exact ih (stepApp bb s e) (selInv_step bb s e hInv hok.1) hok.2

theorem c4_selection_invariant_witness :
    SelInv initialAppState ∧
    okTrace bbStub initialAppState
      [.addPart .BOX, .addPart .SPHERE, .partClick 0 true, .booleanOp .UNION] = true ∧
    SelInv (runApp bbStub initialAppState
      [.addPart .BOX, .addPart .SPHERE, .partClick 0 true, .booleanOp .UNION]) :=
  ⟨by decide, by decide,
    c4_selection_invariant bbStub initialAppState
      [.addPart .BOX, .addPart .SPHERE, .partClick 0 true, .booleanOp .UNION]
      (by decide) (by decide)⟩
